import Mathlib

/-!
Shallow embedding of `src/document_analyzer_evaluator.py` (the
evaluation-and-costing engine of the content-understanding evaluator):
the value normalizer `extract_actual_value`, the cost model
`calculate_document_cost` / `aggregate_costs`, the accuracy scorer
`compare_results_to_testdata`, and the run-level summary computed in
`generate_evaluation_report`.

Python/JSON values are embedded as the inductive type `JVal`; Python
`float` arithmetic is modelled exactly over `ℚ`; Python's built-in
`str` / `strip` / `lower` / `round` are modelled by `pyStr`,
`String.trim`, `String.toLower` and `pyRound2` (round-half-to-even at
two decimals).
-/

/-- A Python/JSON value as handled by the evaluator: `None`, booleans,
integers, floats (modelled exactly as rationals), strings, lists and
string-keyed dicts (modelled as association lists in insertion order). -/
inductive JVal where
  | none : JVal
  | bool : Bool → JVal
  | int : Int → JVal
  | float : ℚ → JVal
  | str : String → JVal
  | list : List JVal → JVal
  | dict : List (String × JVal) → JVal

/-- Python `d.get(k)` on a dict modelled as an association list
(first matching key wins; a Python dict has unique keys anyway). -/
def dict_get (k : String) : List (String × JVal) → Option JVal
  | [] => Option.none
  | (k', v) :: rest => if k' = k then Option.some v else dict_get k rest

/-- Python `s.endswith(suffix)`, modelled on the code-point list (Python
strings are sequences of code points). -/
def py_endswith (s suffix : String) : Bool := suffix.data.isSuffixOf s.data

/-- Python `s[:-n]`: drop the last `n` code points. -/
def py_drop_last (s : String) (n : Nat) : String :=
  String.mk (s.data.take (s.data.length - n))

/-- Python `s.strip()`: remove whitespace from both ends. -/
def py_strip (s : String) : String :=
  String.mk (((s.data.dropWhile Char.isWhitespace).reverse.dropWhile
    Char.isWhitespace).reverse)

/-- Python `s.lower()` (code-point-wise lowercasing). -/
def py_lower (s : String) : String := String.mk (s.data.map Char.toLower)

theorem dict_get_sizeOf_lt {k : String} :
    ∀ {kvs : List (String × JVal)} {v : JVal},
      dict_get k kvs = Option.some v → sizeOf v < sizeOf kvs := by
  intro kvs
  induction kvs with
  | nil => intro v h; simp [dict_get] at h
  | cons kv rest ih =>
    intro v h
    obtain ⟨k', w⟩ := kv
    by_cases hk : k' = k
    · simp [dict_get, hk] at h
      subst h
      simp
      omega
    · simp [dict_get, hk] at h
      have := ih h
      simp
      omega

mutual

/-- The value normalizer, `extract_actual_value` in the source: turns a
typed-value record (a dict with a `"type"` tag and a tag-specific payload
slot) into a plain comparable value.  A non-dict input is returned
unchanged (defensive passthrough); an unrecognized tag yields `None`.
For tag `"time"`, a non-empty string payload ending in `":00"` has that
suffix stripped.  (In Python a truthy non-string `valueTime` payload
would raise `AttributeError`; the model returns such payloads unchanged,
and a payload that is present but of the wrong shape for `"array"` /
`"object"` is modelled by the `.get` default `[]` / `{}`.) -/
def extract_actual_value : JVal → JVal
  | JVal.dict kvs =>
    match dict_get "type" kvs with
    | Option.some (JVal.str "string") => (dict_get "valueString" kvs).getD JVal.none
    | Option.some (JVal.str "number") => (dict_get "valueNumber" kvs).getD JVal.none
    | Option.some (JVal.str "date") => (dict_get "valueDate" kvs).getD JVal.none
    | Option.some (JVal.str "boolean") => (dict_get "valueBoolean" kvs).getD JVal.none
    | Option.some (JVal.str "integer") => (dict_get "valueInteger" kvs).getD JVal.none
    | Option.some (JVal.str "time") =>
      match dict_get "valueTime" kvs with
      | Option.some (JVal.str s) =>
        if !s.data.isEmpty && py_endswith s ":00" then JVal.str (py_drop_last s 3)
        else JVal.str s
      | Option.some v => v
      | Option.none => JVal.none
    | Option.some (JVal.str "array") =>
      match harr : dict_get "valueArray" kvs with
      | Option.some (JVal.list xs) => JVal.list (extract_list xs)
      | _ => JVal.list []
    | Option.some (JVal.str "object") =>
      match hobj : dict_get "valueObject" kvs with
      | Option.some (JVal.dict okvs) => JVal.dict (extract_obj okvs)
      | _ => JVal.dict []
    | _ => JVal.none
  | v => v
termination_by v => sizeOf v
decreasing_by
  · have h1 := dict_get_sizeOf_lt harr
    simp at h1 ⊢
    omega
  · have h1 := dict_get_sizeOf_lt hobj
    simp at h1 ⊢
    omega

/-- The `for item in arr` loop of the `"array"` branch: normalize each
element, preserving order. -/
def extract_list : List JVal → List JVal
  | [] => []
  | x :: xs => extract_actual_value x :: extract_list xs
termination_by xs => sizeOf xs

/-- The `{k: extract_actual_value(v) for k, v in obj.items()}` comprehension
of the `"object"` branch: normalize each value, preserving keys and order. -/
def extract_obj : List (String × JVal) → List (String × JVal)
  | [] => []
  | (k, v) :: rest => (k, extract_actual_value v) :: extract_obj rest
termination_by kvs => sizeOf kvs

end

/-- Token counts of a usage record.  The field defaults model the
source's `tokens.get("input", 0)` etc. for missing keys. -/
structure TokenUsage where
  input : ℚ := 0
  output : ℚ := 0
  contextualization : ℚ := 0
deriving DecidableEq

/-- A per-document usage record, `usage_data` in the source.  Field
defaults model `usage_data.get("documentPages", 0)` and
`usage_data.get("tokens", {})`. -/
structure UsageData where
  documentPages : ℚ := 0
  tokens : TokenUsage := {}
deriving DecidableEq

/-- The cost dict built by `calculate_document_cost` and summed by
`aggregate_costs`. -/
structure CostBreakdown where
  content_extraction : ℚ
  field_extraction : ℚ
  contextualization : ℚ
  total : ℚ
deriving DecidableEq

/-- The source's `calculate_document_cost(usage_data, mode)`: content
extraction at $5 per 1,000 pages; field extraction and contextualization
at per-million-token rates that depend on the (case-insensitively
matched) mode, any mode other than `"pro"` being priced as standard;
total = sum of the three components. -/
def calculate_document_cost (usage_data : UsageData) (mode : String := "standard") :
    CostBreakdown :=
  let content_extraction : ℚ := (usage_data.documentPages / 1000) * 5.0
  let input_tokens := usage_data.tokens.input
  let output_tokens := usage_data.tokens.output
  let contextualization_tokens := usage_data.tokens.contextualization
  let field_extraction : ℚ :=
    if py_lower mode = "pro" then
      (input_tokens / 1000000) * 1.21 + (output_tokens / 1000000) * 4.84
    else
      (input_tokens / 1000000) * 2.75 + (output_tokens / 1000000) * 11.0
  let contextualization : ℚ :=
    if py_lower mode = "pro" then
      (contextualization_tokens / 1000000) * 1.50
    else
      (contextualization_tokens / 1000000) * 1.0
  { content_extraction := content_extraction
    field_extraction := field_extraction
    contextualization := contextualization
    total := content_extraction + field_extraction + contextualization }

/-- One step of the `for cost in document_costs: for key in totals:
totals[key] += cost[key]` loop of `aggregate_costs`: every component,
`total` included, is added independently. -/
def add_cost (totals cost : CostBreakdown) : CostBreakdown :=
  { content_extraction := totals.content_extraction + cost.content_extraction
    field_extraction := totals.field_extraction + cost.field_extraction
    contextualization := totals.contextualization + cost.contextualization
    total := totals.total + cost.total }

/-- The source's `aggregate_costs(document_costs)`: fold the
component-wise addition over the list, starting from the all-zero dict. -/
def aggregate_costs (document_costs : List CostBreakdown) : CostBreakdown :=
  document_costs.foldl add_cost
    { content_extraction := 0, field_extraction := 0, contextualization := 0, total := 0 }

/-- Decimal form of a Python float modelled as a rational.  (Python's
shortest-round-trip float repr is not exactly representable here; no
claim depends on the concrete spelling, only on one fixed `str` being
applied uniformly to both sides of every comparison.) -/
def pyFloatStr (q : ℚ) : String :=
  if q.den = 1 then toString q.num ++ ".0" else toString q

mutual

/-- Python `repr` on the embedded values: `repr` is what `str` applies to
the elements of a list or dict (`None` → `"None"`, `True` → `"True"`,
strings get single quotes). -/
def pyRepr : JVal → String
  | JVal.none => "None"
  | JVal.bool true => "True"
  | JVal.bool false => "False"
  | JVal.int n => toString n
  | JVal.float q => pyFloatStr q
  | JVal.str s => "'" ++ s ++ "'"
  | JVal.list xs => "[" ++ String.intercalate ", " (pyReprList xs) ++ "]"
  | JVal.dict kvs => "\x7b" ++ String.intercalate ", " (pyReprKVs kvs) ++ "\x7d"
termination_by v => sizeOf v

def pyReprList : List JVal → List String
  | [] => []
  | x :: xs => pyRepr x :: pyReprList xs
termination_by xs => sizeOf xs

def pyReprKVs : List (String × JVal) → List String
  | [] => []
  | (k, v) :: rest => ("'" ++ k ++ "': " ++ pyRepr v) :: pyReprKVs rest
termination_by kvs => sizeOf kvs

end

/-- Python `str(v)`: identity on strings, `repr` otherwise. -/
def pyStr : JVal → String
  | JVal.str s => s
  | v => pyRepr v

/-- The normalization applied to both sides of the scorer's comparison:
`str(v).strip().lower()`. -/
def cmpKey (v : JVal) : String := py_lower (py_strip (pyStr v))

/-- Round a rational to the nearest integer, ties to the even neighbour:
Python's built-in `round` on an exactly representable value. -/
def roundHalfEven (x : ℚ) : ℤ :=
  if x - ⌊x⌋ < 1 / 2 then ⌊x⌋
  else if x - ⌊x⌋ > 1 / 2 then ⌊x⌋ + 1
  else if ⌊x⌋ % 2 = 0 then ⌊x⌋ else ⌊x⌋ + 1

/-- Python `round(x, 2)` modelled exactly over `ℚ`: round half to even
at two decimal places. -/
def pyRound2 (x : ℚ) : ℚ := (roundHalfEven (x * 100) : ℚ) / 100

/-- One per-field entry of the `field_scores` dict built by the scorer:
`status` is the literal `"✅"` / `"❌"` marker the source stores and that
all downstream aggregation compares against. -/
structure FieldScore where
  status : String
  expected : JVal
  actual : JVal

/-- The `for field, details in extracted_fields.items()` loop of
`compare_results_to_testdata`: look the field up in the ground truth
(`None` when absent), normalize the extracted typed value, compare the
two via `str(·).strip().lower()` equality, and accumulate
`(success, total, field_scores)`. -/
def score_fields (testdata : List (String × JVal)) :
    List (String × JVal) → Nat × Nat × List (String × FieldScore)
  | [] => (0, 0, [])
  | (field, details) :: rest =>
    let expected := (dict_get field testdata).getD JVal.none
    let actual := extract_actual_value details
    let r := score_fields testdata rest
    if cmpKey expected = cmpKey actual then
      (r.1 + 1, r.2.1 + 1,
        (field, { status := "✅", expected := expected, actual := actual }) :: r.2.2)
    else
      (r.1, r.2.1 + 1,
        (field, { status := "❌", expected := expected, actual := actual }) :: r.2.2)

/-- The source's `compare_results_to_testdata(result, testdata)`,
taking the `extracted_fields` map (`result["result"]["contents"][0]
.get("fields", {})`) directly: returns the document accuracy
`round((success / total) * 100, 2)` (0 when no field was scored) and
the per-field score dict. -/
def compare_results_to_testdata (extracted_fields testdata : List (String × JVal)) :
    ℚ × List (String × FieldScore) :=
  let r := score_fields testdata extracted_fields
  let accuracy : ℚ :=
    if r.2.1 ≠ 0 then pyRound2 (((r.1 : ℚ) / (r.2.1 : ℚ)) * 100) else 0
  (accuracy, r.2.2)

/-- One element of `all_results` in the main workflow: a document name
with its per-field score dict (a score sheet; appended only when the
document had a ground-truth test file). -/
structure DocResult where
  doc : String
  fields : List (String × FieldScore)

/-- One element of `all_costs` in the main workflow: a document name,
its usage record and its computed cost dict (appended for every
analyzed document, ground truth or not). -/
structure CostEntry where
  document : String
  usage : UsageData
  costs : CostBreakdown

/-- The `summary` block of the JSON report built in
`generate_evaluation_report`. -/
structure ReportSummary where
  documents_analyzed : Nat
  total_fields_tested : Nat
  overall_accuracy : ℚ
  field_passes : Nat
  field_failures : Nat

/-- The overall-statistics computation of `generate_evaluation_report`
(lines 311-314 and the `summary` dict): `total_docs = len(results) if
results else len(all_costs)`, fields tested / passes summed over the
score sheets, `overall_accuracy = round((passes / tested) * 100, 2)`
guarded against a zero denominator, failures = tested - passes. -/
def report_summary (results : List DocResult) (all_costs : List CostEntry) :
    ReportSummary :=
  let total_docs : Nat := if !results.isEmpty then results.length else all_costs.length
  let total_fields_tested : Nat :=
    if !results.isEmpty then (results.map (fun item => item.fields.length)).sum else 0
  let total_field_passes : Nat :=
    if !results.isEmpty then
      (results.map (fun item => item.fields.countP (fun fd => fd.2.status = "✅"))).sum
    else 0
  let overall_accuracy : ℚ :=
    if 0 < total_fields_tested then
      pyRound2 (((total_field_passes : ℚ) / (total_fields_tested : ℚ)) * 100)
    else 0
  { documents_analyzed := total_docs
    total_fields_tested := total_fields_tested
    overall_accuracy := overall_accuracy
    field_passes := total_field_passes
    field_failures := total_fields_tested - total_field_passes }

/-! ### IEEE binary64 model of the cost arithmetic

The cost functions above idealize Python's `float` arithmetic as exact
rational arithmetic.  That idealization is harmless for the structural
cost claims, but not for exact additivity of `total` after aggregation:
binary64 addition rounds, and is therefore not associative.  The
following second model of the same two source functions keeps every
intermediate result correctly rounded to binary64, so that claims about
the program's own arithmetic can be settled. -/

/-- Correct rounding of an exact rational to IEEE-754 binary64:
round to nearest, ties to even, at 53 significant bits, with the binade
located by `Int.log 2`.  Overflow and subnormal thresholds are not
modelled; every quantity in this development lies well inside the
normal range. -/
def roundB64 (x : ℚ) : ℚ :=
  if x = 0 then 0
  else
    ((roundHalfEven (x / (2 : ℚ) ^ (Int.log 2 |x| - 52)) : ℤ) : ℚ) *
      (2 : ℚ) ^ (Int.log 2 |x| - 52)

/-- IEEE binary64 addition: the exact sum, correctly rounded. -/
def flAdd (x y : ℚ) : ℚ := roundB64 (x + y)

/-- IEEE binary64 multiplication: the exact product, correctly
rounded. -/
def flMul (x y : ℚ) : ℚ := roundB64 (x * y)

/-- IEEE binary64 division (also CPython's correctly rounded `int/int`
true division): the exact quotient, correctly rounded. -/
def flDiv (x y : ℚ) : ℚ := roundB64 (x / y)

/-- `calculate_document_cost` once more, now in the program's own
binary64 arithmetic: every operation is correctly rounded and every
float literal denotes its nearest binary64 value (`roundB64` of the
decimal; for the representable literals this is the literal itself).
Python evaluates `a * b + c * d` as `(a * b) + (c * d)` and
`a + b + c` as `(a + b) + c`, which is the association used here. -/
def calculate_document_cost_fl (usage_data : UsageData) (mode : String := "standard") :
    CostBreakdown :=
  let content_extraction := flMul (flDiv usage_data.documentPages 1000) (roundB64 5.0)
  let input_tokens := usage_data.tokens.input
  let output_tokens := usage_data.tokens.output
  let contextualization_tokens := usage_data.tokens.contextualization
  let field_extraction :=
    if py_lower mode = "pro" then
      flAdd (flMul (flDiv input_tokens 1000000) (roundB64 1.21))
        (flMul (flDiv output_tokens 1000000) (roundB64 4.84))
    else
      flAdd (flMul (flDiv input_tokens 1000000) (roundB64 2.75))
        (flMul (flDiv output_tokens 1000000) (roundB64 11.0))
  let contextualization :=
    if py_lower mode = "pro" then
      flMul (flDiv contextualization_tokens 1000000) (roundB64 1.50)
    else
      flMul (flDiv contextualization_tokens 1000000) (roundB64 1.0)
  { content_extraction := content_extraction
    field_extraction := field_extraction
    contextualization := contextualization
    total := flAdd (flAdd content_extraction field_extraction) contextualization }

/-- One step of the `aggregate_costs` loop in binary64 arithmetic: each
of the four running sums is a rounded float addition. -/
def add_cost_fl (totals cost : CostBreakdown) : CostBreakdown :=
  { content_extraction := flAdd totals.content_extraction cost.content_extraction
    field_extraction := flAdd totals.field_extraction cost.field_extraction
    contextualization := flAdd totals.contextualization cost.contextualization
    total := flAdd totals.total cost.total }

/-- `aggregate_costs` in binary64 arithmetic. -/
def aggregate_costs_fl (document_costs : List CostBreakdown) : CostBreakdown :=
  document_costs.foldl add_cost_fl
    { content_extraction := 0, field_extraction := 0, contextualization := 0, total := 0 }

/-! ## Claims -/

/-- C1: on the usage record with 2000 pages and one million tokens of
each kind, `calculate_document_cost` returns content_extraction 10.00,
field_extraction 13.75, contextualization 1.00 and total 24.75 in
standard mode, and content_extraction 10.00, field_extraction 6.05,
contextualization 1.50 and total 17.55 in pro mode. -/
theorem claim_C1_pricing_tiers :
    calculate_document_cost
      { documentPages := 2000,
        tokens := { input := 1000000, output := 1000000, contextualization := 1000000 } }
      "standard" =
      { content_extraction := 10.00, field_extraction := 13.75,
        contextualization := 1.00, total := 24.75 } ∧
    calculate_document_cost
      { documentPages := 2000,
        tokens := { input := 1000000, output := 1000000, contextualization := 1000000 } }
      "pro" =
      { content_extraction := 10.00, field_extraction := 6.05,
        contextualization := 1.50, total := 17.55 } := by
  have hstd : ¬ (py_lower "standard" = "pro") := by decide
  have hpro : py_lower "pro" = "pro" := by decide
  constructor
  · simp only [calculate_document_cost, if_neg hstd, CostBreakdown.mk.injEq]
    norm_num
  · simp only [calculate_document_cost, if_pos hpro, CostBreakdown.mk.injEq]
    norm_num

/-- C9: normalizing a `"time"` typed value strips a trailing `":00"`:
`"09:15:00"` normalizes to `"09:15"`, while `"09:15:30"` passes through
unchanged. -/
theorem claim_C9_time_truncation :
    extract_actual_value
        (JVal.dict [("type", JVal.str "time"), ("valueTime", JVal.str "09:15:00")]) =
      JVal.str "09:15" ∧
    extract_actual_value
        (JVal.dict [("type", JVal.str "time"), ("valueTime", JVal.str "09:15:30")]) =
      JVal.str "09:15:30" := by
  have h1 : py_endswith "09:15:00" ":00" = true := by decide
  have h2 : py_endswith "09:15:30" ":00" = false := by decide
  have h3 : py_drop_last "09:15:00" 3 = "09:15" := by decide
  constructor
  · simp [extract_actual_value, dict_get, h1, h3]
  · simp [extract_actual_value, dict_get, h2]

/-- C10: the `":00"` stripping of the `"time"` branch applies to any
non-empty raw string ending in `":00"`, not only to strings with a
seconds component — the last three characters are dropped, so a
minute-precision `"14:00"` normalizes to `"14"` (see the witness). -/
theorem claim_C10_time_strip_general (s : String) (h1 : s ≠ "")
    (h2 : py_endswith s ":00" = true) :
    extract_actual_value
        (JVal.dict [("type", JVal.str "time"), ("valueTime", JVal.str s)]) =
      JVal.str (py_drop_last s 3) := by
  have hne : s.data.isEmpty = false := by
    cases hd : s.data with
    | nil => exact absurd (String.ext (hd.trans rfl)) h1
    | cons a l => rfl
  simp [extract_actual_value, dict_get, hne, h2]

/-- Witness for C10 at the concrete input `"14:00"`, which normalizes to
`"14"`, losing the minutes field. -/
theorem claim_C10_witness :
    ("14:00" ≠ "" ∧ py_endswith "14:00" ":00" = true) ∧
    extract_actual_value
        (JVal.dict [("type", JVal.str "time"), ("valueTime", JVal.str "14:00")]) =
      JVal.str "14" := by
  refine ⟨⟨by decide, by decide⟩, ?_⟩
  have h := claim_C10_time_strip_general "14:00" (by decide) (by decide)
  rw [h]
  have hd : py_drop_last "14:00" 3 = "14" := by decide
  rw [hd]

/-- Auxiliary invariant for the `aggregate_costs` fold: if the
accumulator's `total` is the sum of its other components and every cost
in the list satisfies the same invariant, so does the fold's result. -/
theorem aggregate_costs_foldl_total (document_costs : List CostBreakdown) :
    ∀ acc : CostBreakdown,
      acc.total = acc.content_extraction + acc.field_extraction + acc.contextualization →
      (∀ c ∈ document_costs,
        c.total = c.content_extraction + c.field_extraction + c.contextualization) →
      (document_costs.foldl add_cost acc).total =
        (document_costs.foldl add_cost acc).content_extraction +
        (document_costs.foldl add_cost acc).field_extraction +
        (document_costs.foldl add_cost acc).contextualization := by
  induction document_costs with
  | nil => intro acc hacc _; simpa using hacc
  | cons c rest ih =>
    intro acc hacc hall
    have hc := hall c (List.mem_cons_self c rest)
    have hrest : ∀ d ∈ rest,
        d.total = d.content_extraction + d.field_extraction + d.contextualization :=
      fun d hd => hall d (List.mem_cons_of_mem c hd)
    have hacc' : (add_cost acc c).total =
        (add_cost acc c).content_extraction + (add_cost acc c).field_extraction +
          (add_cost acc c).contextualization := by
      simp only [add_cost]
      rw [hacc, hc]
      ring
    simpa using ih (add_cost acc c) hacc' hrest

/-- A rational at most half below the next integer rounds down: if
`n ≤ x < n + 1/2` then round-half-even gives `n`. -/
theorem roundHalfEven_eq_low (x : ℚ) (n : ℤ) (h1 : (n : ℚ) ≤ x)
    (h2 : x < (n : ℚ) + 1 / 2) : roundHalfEven x = n := by
  have hf : ⌊x⌋ = n := by
    rw [Int.floor_eq_iff]
    exact ⟨h1, by linarith⟩
  simp only [roundHalfEven, hf]
  rw [if_pos (by linarith)]

/-- Unfold `roundB64` once the binade is pinned down by explicit
power-of-two bounds. -/
theorem roundB64_eq_of (x : ℚ) (k : ℤ) (hx : 0 < x) (h1 : (2 : ℚ) ^ k ≤ x)
    (h2 : x < (2 : ℚ) ^ (k + 1)) :
    roundB64 x =
      ((roundHalfEven (x / (2 : ℚ) ^ (k - 52)) : ℤ) : ℚ) * (2 : ℚ) ^ (k - 52) := by
  have hb : 1 < 2 := one_lt_two
  have hle : k ≤ Int.log 2 x :=
    (Int.zpow_le_iff_le_log hb hx).mp (by exact_mod_cast h1)
  have hlt : Int.log 2 x < k + 1 :=
    (Int.lt_zpow_iff_log_lt hb hx).mp (by exact_mod_cast h2)
  have hlog : Int.log 2 |x| = k := by
    rw [abs_of_pos hx]
    omega
  simp only [roundB64, if_neg (ne_of_gt hx), hlog]

/-- A value that is an integer multiple of the unit in the last place of
its binade is exactly representable in binary64 and rounds to itself. -/
theorem roundB64_exact (x : ℚ) (k m : ℤ) (hx : 0 < x) (h1 : (2 : ℚ) ^ k ≤ x)
    (h2 : x < (2 : ℚ) ^ (k + 1)) (hm : x = (m : ℚ) * (2 : ℚ) ^ (k - 52)) :
    roundB64 x = x := by
  have hp : ((2 : ℚ) ^ (k - 52)) ≠ 0 := zpow_ne_zero _ two_ne_zero
  have hdiv : x / (2 : ℚ) ^ (k - 52) = (m : ℚ) := by
    rw [hm]
    field_simp
  rw [roundB64_eq_of x k hx h1 h2, hdiv,
    roundHalfEven_eq_low ((m : ℚ)) m le_rfl (by linarith)]
  exact hm.symm

theorem rb_zero : roundB64 (0 : ℚ) = 0 := by
  simp [roundB64]

theorem rb_one : roundB64 (1 : ℚ) = 1 :=
  roundB64_exact 1 0 4503599627370496 (by norm_num) (by norm_num) (by norm_num)
    (by norm_num)

theorem rb_five : roundB64 (5 : ℚ) = 5 :=
  roundB64_exact 5 2 5629499534213120 (by norm_num) (by norm_num) (by norm_num)
    (by norm_num)

theorem rb_eleven : roundB64 (11 : ℚ) = 11 :=
  roundB64_exact 11 3 6192449487634432 (by norm_num) (by norm_num) (by norm_num)
    (by norm_num)

theorem rb_quarter : roundB64 ((1 : ℚ) / 4) = 1 / 4 :=
  roundB64_exact (1 / 4) (-2) 4503599627370496 (by norm_num) (by norm_num)
    (by norm_num) (by norm_num)

theorem rb_eleven_fourths : roundB64 ((11 : ℚ) / 4) = 11 / 4 :=
  roundB64_exact (11 / 4) 1 6192449487634432 (by norm_num) (by norm_num)
    (by norm_num) (by norm_num)

theorem rb_eleven_halves : roundB64 ((11 : ℚ) / 2) = 11 / 2 :=
  roundB64_exact (11 / 2) 2 6192449487634432 (by norm_num) (by norm_num)
    (by norm_num) (by norm_num)

theorem rb_2e15 : roundB64 (2000000000000000 : ℚ) = 2000000000000000 :=
  roundB64_exact 2000000000000000 50 8000000000000000 (by norm_num) (by norm_num)
    (by norm_num) (by norm_num)

theorem rb_1e16 : roundB64 (10000000000000000 : ℚ) = 10000000000000000 :=
  roundB64_exact 10000000000000000 53 5000000000000000 (by norm_num) (by norm_num)
    (by norm_num) (by norm_num)

theorem rb_1e16_plus2 : roundB64 (10000000000000002 : ℚ) = 10000000000000002 :=
  roundB64_exact 10000000000000002 53 5000000000000001 (by norm_num) (by norm_num)
    (by norm_num) (by norm_num)

/-- Above `2^53` the binary64 spacing is 2, so `10^16 + 2.75` rounds
down to `10^16 + 2`: the first place exact additivity is lost. -/
theorem rb_sum1 : roundB64 ((40000000000000011 : ℚ) / 4) = 10000000000000002 := by
  rw [roundB64_eq_of _ 53 (by norm_num) (by norm_num) (by norm_num)]
  rw [show ((40000000000000011 : ℚ) / 4) / (2 : ℚ) ^ ((53 : ℤ) - 52) =
    (5000000000000001 : ℚ) + 3 / 8 by norm_num]
  rw [roundHalfEven_eq_low ((5000000000000001 : ℚ) + 3 / 8) 5000000000000001
    (by push_cast; norm_num) (by push_cast; norm_num)]
  push_cast
  norm_num

/-- Likewise `(10^16 + 2) + 2.75` rounds down to `10^16 + 4`. -/
theorem rb_sum2 : roundB64 ((40000000000000019 : ℚ) / 4) = 10000000000000004 := by
  rw [roundB64_eq_of _ 53 (by norm_num) (by norm_num) (by norm_num)]
  rw [show ((40000000000000019 : ℚ) / 4) / (2 : ℚ) ^ ((53 : ℤ) - 52) =
    (5000000000000002 : ℚ) + 3 / 8 by norm_num]
  rw [roundHalfEven_eq_low ((5000000000000002 : ℚ) + 3 / 8) 5000000000000002
    (by push_cast; norm_num) (by push_cast; norm_num)]
  push_cast
  norm_num

/-- The binary64 cost of document 1 of the C3 counterexample:
`2 * 10^18` pages and 250,000 output tokens in standard mode.  The
stored `total` is `10^16 + 2`, already 0.75 below the exact sum of the
components. -/
theorem calculate_fl_doc1 :
    calculate_document_cost_fl
      { documentPages := 2000000000000000000, tokens := { output := 250000 } }
      "standard" =
    { content_extraction := 10000000000000000, field_extraction := 11 / 4,
      contextualization := 0, total := 10000000000000002 } := by
  have hstd : ¬ (py_lower "standard" = "pro") := by decide
  norm_num [calculate_document_cost_fl, flAdd, flMul, flDiv, hstd,
    CostBreakdown.mk.injEq, rb_zero, rb_five, rb_eleven, rb_quarter,
    rb_eleven_fourths, rb_2e15, rb_1e16, rb_sum1, rb_1e16_plus2]

/-- The binary64 cost of document 2 of the C3 counterexample: no pages,
250,000 output tokens in standard mode. -/
theorem calculate_fl_doc2 :
    calculate_document_cost_fl { tokens := { output := 250000 } } "standard" =
    { content_extraction := 0, field_extraction := 11 / 4,
      contextualization := 0, total := 11 / 4 } := by
  have hstd : ¬ (py_lower "standard" = "pro") := by decide
  norm_num [calculate_document_cost_fl, flAdd, flMul, flDiv, hstd,
    CostBreakdown.mk.injEq, rb_zero, rb_five, rb_eleven, rb_quarter,
    rb_eleven_fourths]

/-- Aggregating the two counterexample documents in binary64: the
running `total` lands on `10^16 + 4` while the aggregated components
sum to `10^16 + 5.5`. -/
theorem aggregate_fl_eval :
    aggregate_costs_fl
      [{ content_extraction := 10000000000000000, field_extraction := 11 / 4,
         contextualization := 0, total := 10000000000000002 },
       { content_extraction := 0, field_extraction := 11 / 4,
         contextualization := 0, total := 11 / 4 }] =
    { content_extraction := 10000000000000000, field_extraction := 11 / 2,
      contextualization := 0, total := 10000000000000004 } := by
  norm_num [aggregate_costs_fl, add_cost_fl, flAdd, CostBreakdown.mk.injEq,
    rb_zero, rb_1e16, rb_eleven_fourths, rb_eleven_halves, rb_1e16_plus2, rb_sum2]

/-- C3 fails as stated: in the program's binary64 arithmetic, aggregating
a `2 * 10^18`-page document with a token-only document gives an
aggregate `total` of `10^16 + 4`, while the sum of the aggregated
components is `10^16 + 5.5` — float addition is not associative, so the
exact additivity invariant does not survive `aggregate_costs`. -/
theorem claim_C3_counterexample :
    (aggregate_costs_fl
        [calculate_document_cost_fl
          { documentPages := 2000000000000000000, tokens := { output := 250000 } }
          "standard",
         calculate_document_cost_fl { tokens := { output := 250000 } }
          "standard"]).total ≠
      (aggregate_costs_fl
        [calculate_document_cost_fl
          { documentPages := 2000000000000000000, tokens := { output := 250000 } }
          "standard",
         calculate_document_cost_fl { tokens := { output := 250000 } }
          "standard"]).content_extraction +
      (aggregate_costs_fl
        [calculate_document_cost_fl
          { documentPages := 2000000000000000000, tokens := { output := 250000 } }
          "standard",
         calculate_document_cost_fl { tokens := { output := 250000 } }
          "standard"]).field_extraction +
      (aggregate_costs_fl
        [calculate_document_cost_fl
          { documentPages := 2000000000000000000, tokens := { output := 250000 } }
          "standard",
         calculate_document_cost_fl { tokens := { output := 250000 } }
          "standard"]).contextualization := by
  rw [calculate_fl_doc1, calculate_fl_doc2, aggregate_fl_eval]
  norm_num

/-- The `total` of a binary64 fold of `add_cost_fl` is the binary64 fold
of the input totals. -/
theorem foldl_add_cost_fl_total (document_costs : List CostBreakdown) :
    ∀ acc : CostBreakdown,
      (document_costs.foldl add_cost_fl acc).total =
        (document_costs.map CostBreakdown.total).foldl flAdd acc.total := by
  induction document_costs with
  | nil => intro acc; rfl
  | cons c rest ih => intro acc; simpa using ih (add_cost_fl acc c)

/-- C3 (amended): per document, `total` is the program's own
correctly-rounded binary64 sum `(content + field) + contextualization`
of the three components; after `aggregate_costs` the `total` is the
correctly-rounded running sum of the input totals, which — binary64
addition not being associative — need not equal the sum of the
aggregated components; the exact additivity the claim asserts holds
throughout only in exact rational arithmetic. -/
theorem claim_C3_amended_total :
    (∀ (usage_data : UsageData) (mode : String),
      (calculate_document_cost_fl usage_data mode).total =
        flAdd (flAdd (calculate_document_cost_fl usage_data mode).content_extraction
            (calculate_document_cost_fl usage_data mode).field_extraction)
          (calculate_document_cost_fl usage_data mode).contextualization) ∧
    (∀ document_costs : List CostBreakdown,
      (aggregate_costs_fl document_costs).total =
        (document_costs.map CostBreakdown.total).foldl flAdd 0) ∧
    (∀ document_costs : List CostBreakdown,
      (∀ c ∈ document_costs,
        c.total = c.content_extraction + c.field_extraction + c.contextualization) →
      (aggregate_costs document_costs).total =
        (aggregate_costs document_costs).content_extraction +
        (aggregate_costs document_costs).field_extraction +
        (aggregate_costs document_costs).contextualization) := by
  refine ⟨fun usage_data mode => rfl, fun document_costs => ?_,
    fun document_costs hall =>
      aggregate_costs_foldl_total document_costs _ (by simp) hall⟩
  have h := foldl_add_cost_fl_total document_costs
    { content_extraction := 0, field_extraction := 0, contextualization := 0,
      total := 0 }
  simpa [aggregate_costs_fl] using h

/-- Witness for the amended C3: the binary64 per-document identity at a
concrete pro-mode usage record, and the exact-arithmetic aggregation
invariant on the one-element list of its exact cost. -/
theorem claim_C3_witness :
    ((calculate_document_cost_fl { documentPages := 3 } "pro").total =
      flAdd (flAdd (calculate_document_cost_fl
            { documentPages := 3 } "pro").content_extraction
          (calculate_document_cost_fl { documentPages := 3 } "pro").field_extraction)
        (calculate_document_cost_fl { documentPages := 3 } "pro").contextualization) ∧
    ((aggregate_costs [calculate_document_cost { documentPages := 3 } "pro"]).total =
      (aggregate_costs
        [calculate_document_cost { documentPages := 3 } "pro"]).content_extraction +
      (aggregate_costs
        [calculate_document_cost { documentPages := 3 } "pro"]).field_extraction +
      (aggregate_costs
        [calculate_document_cost { documentPages := 3 } "pro"]).contextualization) := by
  refine ⟨claim_C3_amended_total.1 _ _, claim_C3_amended_total.2.2 _ ?_⟩
  intro c hc
  rw [List.mem_singleton] at hc
  subst hc
  simp [calculate_document_cost]

/-- C5: `aggregate_costs` sums component-wise — on a two-element list it
returns the component-wise sum of the two breakdowns, and on the empty
list it returns the all-zero breakdown. -/
theorem claim_C5_aggregation_linearity :
    (∀ c1 c2 : CostBreakdown,
      aggregate_costs [c1, c2] =
        { content_extraction := c1.content_extraction + c2.content_extraction,
          field_extraction := c1.field_extraction + c2.field_extraction,
          contextualization := c1.contextualization + c2.contextualization,
          total := c1.total + c2.total }) ∧
    aggregate_costs [] =
      { content_extraction := 0, field_extraction := 0,
        contextualization := 0, total := 0 } := by
  constructor
  · intro c1 c2
    simp [aggregate_costs, add_cost]
  · rfl

/-- The scorer's `total` counter equals the number of field scores it
returns. -/
theorem score_fields_total_eq_length (testdata : List (String × JVal)) :
    ∀ efs : List (String × JVal),
      (score_fields testdata efs).2.1 = (score_fields testdata efs).2.2.length := by
  intro efs
  induction efs with
  | nil => rfl
  | cons fd rest ih =>
    obtain ⟨field, details⟩ := fd
    simp only [score_fields]
    split <;> simp [ih]

/-- The scorer's `success` counter equals the number of returned field
scores whose status is the pass marker. -/
theorem score_fields_success_eq_countP (testdata : List (String × JVal)) :
    ∀ efs : List (String × JVal),
      (score_fields testdata efs).1 =
        (score_fields testdata efs).2.2.countP (fun p => p.2.status == "✅") := by
  intro efs
  have hfail : (("❌" : String) == "✅") = false := by decide
  induction efs with
  | nil => rfl
  | cons fd rest ih =>
    obtain ⟨field, details⟩ := fd
    simp only [score_fields]
    split <;> simp [List.countP_cons, ih, hfail]

/-- C2: a field passes exactly when the ground-truth value and the
normalized extracted value agree after `str(·).strip().lower()`
normalization — every recorded status is the pass or the fail marker,
and it is the pass marker if and only if the two normalized string
forms are equal. -/
theorem claim_C2_pass_rule (extracted_fields testdata : List (String × JVal))
    (p : String × FieldScore)
    (hp : p ∈ (compare_results_to_testdata extracted_fields testdata).2) :
    (p.2.status = "✅" ∨ p.2.status = "❌") ∧
    (p.2.status = "✅" ↔ cmpKey p.2.expected = cmpKey p.2.actual) := by
  have hp' : p ∈ (score_fields testdata extracted_fields).2.2 := hp
  clear hp
  induction extracted_fields with
  | nil => simp [score_fields] at hp'
  | cons fd rest ih =>
    obtain ⟨field, details⟩ := fd
    simp only [score_fields] at hp'
    split at hp'
    case isTrue h =>
      rw [List.mem_cons] at hp'
      rcases hp' with rfl | hp'
      · exact ⟨Or.inl rfl, iff_of_true rfl h⟩
      · exact ih hp'
    case isFalse h =>
      rw [List.mem_cons] at hp'
      rcases hp' with rfl | hp'
      · refine ⟨Or.inr rfl, iff_of_false ?_ h⟩
        show ("❌" : String) ≠ "✅"
        decide
      · exact ih hp'

/-- Witness for C2 on a one-field document: extracted string `"Alice"`
against ground truth `"alice "` matches after normalization, so its
recorded status is the pass marker. -/
theorem claim_C2_witness :
    (("name", FieldScore.mk "✅" (JVal.str "alice ") (JVal.str "Alice")) ∈
        (compare_results_to_testdata
          [("name", JVal.dict [("type", JVal.str "string"),
            ("valueString", JVal.str "Alice")])]
          [("name", JVal.str "alice ")]).2) ∧
    ((("name", FieldScore.mk "✅" (JVal.str "alice ") (JVal.str "Alice")).2.status = "✅" ∨
      ("name", FieldScore.mk "✅" (JVal.str "alice ") (JVal.str "Alice")).2.status = "❌") ∧
     (("name", FieldScore.mk "✅" (JVal.str "alice ") (JVal.str "Alice")).2.status = "✅" ↔
      cmpKey ("name", FieldScore.mk "✅" (JVal.str "alice ")
          (JVal.str "Alice")).2.expected =
        cmpKey ("name", FieldScore.mk "✅" (JVal.str "alice ")
          (JVal.str "Alice")).2.actual)) := by
  have hcond : cmpKey (JVal.str "alice ") = cmpKey (JVal.str "Alice") := by decide
  have hmem : ("name", FieldScore.mk "✅" (JVal.str "alice ") (JVal.str "Alice")) ∈
      (compare_results_to_testdata
        [("name", JVal.dict [("type", JVal.str "string"),
          ("valueString", JVal.str "Alice")])]
        [("name", JVal.str "alice ")]).2 := by
    simp [compare_results_to_testdata, score_fields, extract_actual_value, dict_get, hcond]
  exact ⟨hmem, claim_C2_pass_rule _ _ _ hmem⟩

/-- C4: the accuracy returned by the scorer is
`round(100 * passes / totalFieldsScored, 2)` when at least one field was
scored and `0` when none was (never a division error). -/
theorem claim_C4_accuracy_formula (extracted_fields testdata : List (String × JVal)) :
    (compare_results_to_testdata extracted_fields testdata).1 =
      if (compare_results_to_testdata extracted_fields testdata).2.length = 0 then 0
      else pyRound2 ((100 *
        ((compare_results_to_testdata extracted_fields testdata).2.countP
          (fun p => p.2.status == "✅") : ℚ)) /
        ((compare_results_to_testdata extracted_fields testdata).2.length : ℚ)) := by
  simp only [compare_results_to_testdata,
    score_fields_total_eq_length testdata extracted_fields,
    score_fields_success_eq_countP testdata extracted_fields]
  by_cases h : (score_fields testdata extracted_fields).2.2.length = 0
  · simp [h]
  · simp only [h, if_neg h, ne_eq, not_false_eq_true, if_true, if_false]
    congr 1
    ring

/-- C8: the scorer evaluates exactly the fields of the analysis
result's field map — the score sheet's key sequence equals the
extracted-field key sequence, so ground-truth-only fields never
appear. -/
theorem claim_C8_scored_field_set (extracted_fields testdata : List (String × JVal)) :
    (compare_results_to_testdata extracted_fields testdata).2.map Prod.fst =
      extracted_fields.map Prod.fst := by
  show (score_fields testdata extracted_fields).2.2.map Prod.fst = _
  induction extracted_fields with
  | nil => rfl
  | cons fd rest ih =>
    obtain ⟨field, details⟩ := fd
    simp only [score_fields]
    split <;> simp [ih]

/-- C6 fails as stated: a normalized object mapping is a plain dict, and
re-normalizing a dict without a `"type"` key yields `None`, not the dict
itself — here the dict mapping "a" to "x" (the normalization of a
one-field object typed value) re-normalizes to `None`. -/
theorem claim_C6_counterexample :
    extract_actual_value (extract_actual_value
        (JVal.dict [("type", JVal.str "object"),
          ("valueObject", JVal.dict [("a", JVal.dict [("type", JVal.str "string"),
            ("valueString", JVal.str "x")])])])) ≠
      extract_actual_value
        (JVal.dict [("type", JVal.str "object"),
          ("valueObject", JVal.dict [("a", JVal.dict [("type", JVal.str "string"),
            ("valueString", JVal.str "x")])])]) := by
  have h1 : extract_actual_value
      (JVal.dict [("type", JVal.str "object"),
        ("valueObject", JVal.dict [("a", JVal.dict [("type", JVal.str "string"),
          ("valueString", JVal.str "x")])])]) =
      JVal.dict [("a", JVal.str "x")] := by
    simp [extract_actual_value, extract_obj, dict_get]
  rw [h1]
  have h2 : extract_actual_value (JVal.dict [("a", JVal.str "x")]) = JVal.none := by
    simp [extract_actual_value, dict_get]
  rw [h2]
  intro h
  exact JVal.noConfusion h

/-- C6 (amended): the normalizer is idempotent on every output that is
not a dict — any non-dict value is returned unchanged by the defensive
passthrough — but a normalized object mapping is a dict, and a dict
without a `"type"` key re-normalizes to `None` instead of itself. -/
theorem claim_C6_amended_idempotence :
    (∀ v : JVal, (∀ kvs : List (String × JVal), v ≠ JVal.dict kvs) →
      extract_actual_value v = v) ∧
    (∀ kvs : List (String × JVal), dict_get "type" kvs = Option.none →
      extract_actual_value (JVal.dict kvs) = JVal.none) := by
  constructor
  · intro v hv
    cases v with
    | dict kvs => exact absurd rfl (hv kvs)
    | none => simp [extract_actual_value]
    | bool b => simp [extract_actual_value]
    | int n => simp [extract_actual_value]
    | float q => simp [extract_actual_value]
    | str s => simp [extract_actual_value]
    | list xs => simp [extract_actual_value]
  · intro kvs h
    simp [extract_actual_value, h]

/-- Witness for the amended C6: a normalized string is a fixed point of
the normalizer, while the normalized object mapping of "a" to "x"
re-normalizes to `None`. -/
theorem claim_C6_witness :
    extract_actual_value (JVal.str "x") = JVal.str "x" ∧
    extract_actual_value (JVal.dict [("a", JVal.str "x")]) = JVal.none := by
  have hne : ∀ kvs : List (String × JVal), JVal.str "x" ≠ JVal.dict kvs := by
    intro kvs h
    exact JVal.noConfusion h
  have hget : dict_get "type" [("a", JVal.str "x")] = Option.none := by
    simp [dict_get]
  exact ⟨claim_C6_amended_idempotence.1 _ hne, claim_C6_amended_idempotence.2 _ hget⟩

/-- C7 fails as stated: in a run where two documents were analyzed (two
cost entries) but only one had ground truth (one score sheet),
`documents_analyzed` is the score-sheet count 1, not the cost-entry
count 2. -/
theorem claim_C7_counterexample :
    0 < ([{ document := "a.pdf", usage := {},
            costs := { content_extraction := 0, field_extraction := 0,
                       contextualization := 0, total := 0 } },
          { document := "b.pdf", usage := {},
            costs := { content_extraction := 0, field_extraction := 0,
                       contextualization := 0, total := 0 } }] : List CostEntry).length ∧
    (report_summary
        [{ doc := "a.pdf",
           fields := [("f", { status := "✅", expected := JVal.none,
                              actual := JVal.none })] }]
        [{ document := "a.pdf", usage := {},
           costs := { content_extraction := 0, field_extraction := 0,
                      contextualization := 0, total := 0 } },
         { document := "b.pdf", usage := {},
           costs := { content_extraction := 0, field_extraction := 0,
                      contextualization := 0, total := 0 } }]).documents_analyzed ≠
      ([{ document := "a.pdf", usage := {},
          costs := { content_extraction := 0, field_extraction := 0,
                     contextualization := 0, total := 0 } },
        { document := "b.pdf", usage := {},
          costs := { content_extraction := 0, field_extraction := 0,
                     contextualization := 0, total := 0 } }] : List CostEntry).length := by
  constructor
  · simp
  · simp [report_summary]

/-- C7 (amended): `documents_analyzed` equals the number of score sheets
whenever at least one exists, and falls back to the number of cost
entries only when no score sheet exists. -/
theorem claim_C7_amended_documents_analyzed (results : List DocResult)
    (all_costs : List CostEntry) :
    (results ≠ [] →
      (report_summary results all_costs).documents_analyzed = results.length) ∧
    (results = [] →
      (report_summary results all_costs).documents_analyzed = all_costs.length) := by
  constructor
  · intro h
    cases results with
    | nil => exact absurd rfl h
    | cons r rs => simp [report_summary]
  · intro h
    subst h
    simp [report_summary]

/-- Witness for the amended C7: one score sheet and no cost entry gives
count 1; no score sheet and one cost entry also gives count 1 via the
fallback. -/
theorem claim_C7_witness :
    (report_summary [{ doc := "a.pdf", fields := [] }] []).documents_analyzed = 1 ∧
    (report_summary []
        [{ document := "a.pdf", usage := {},
           costs := { content_extraction := 0, field_extraction := 0,
                      contextualization := 0, total := 0 } }]).documents_analyzed = 1 := by
  constructor
  · have h := (claim_C7_amended_documents_analyzed
      [{ doc := "a.pdf", fields := [] }] []).1 (by simp)
    simpa using h
  · have h := (claim_C7_amended_documents_analyzed []
      [{ document := "a.pdf", usage := {},
         costs := { content_extraction := 0, field_extraction := 0,
                    contextualization := 0, total := 0 } }]).2 rfl
    simpa using h
